import Mathlib

/-!
Shallow embedding of the yacht-ETL normalization pipeline
(`src/yacht_etl/alpha_csv_builder.py` together with
`src/yacht_etl/config/excel_columns.py` and
`src/yacht_etl/utils/conversions.py`).

A spreadsheet cell is modelled by `Cell` (a string, a number, or a
missing/NaN cell).  A raw row after header renaming is a function from
internal (canonical) column names to cells.  Pandas series operations
become list operations; `pd.to_numeric(..., errors="coerce")` becomes the
total function `toNumeric` returning `Option ℚ` (decimal literals with an
optional sign and fractional part; scientific notation is not modelled);
`NaN`/null is `Cell.empty`.  Numpy's `round` (round half to even) is
`roundHalfEven`.  All string manipulation is done on `List Char` with
structural recursion so that concrete runs reduce inside the kernel.
-/

/-! ## Character-list string helpers -/

/-- Whether, in `startsWithL needle hay`, `needle` occurs at the very start of `hay`. -/
def startsWithL : List Char → List Char → Bool
  | [], _ => true
  | _ :: _, [] => false
  | n :: ns, h :: hs => n == h && startsWithL ns hs

/-- Whether, in `occursIn needle hay`, `needle` occurs contiguously somewhere in `hay`
(Python's `needle in hay`). -/
def occursIn (needle : List Char) : List Char → Bool
  | [] => needle.isEmpty
  | h :: hs => startsWithL needle (h :: hs) || occursIn needle hs

/-- Uppercase every character (Python `str.upper` on ASCII data). -/
def upperL (cs : List Char) : List Char := cs.map Char.toUpper

/-- Case-insensitive containment: uppercase the haystack and look for the
(already-uppercase) needle, as in `name_str.str.contains(..., case=False)`
and `"SEMI" in str(x).upper()`. -/
def containsCI (hay needle : String) : Bool :=
  occursIn needle.toList (upperL hay.toList)

/-- Strip leading and trailing whitespace (Python `str.strip`). -/
def trimL (cs : List Char) : List Char :=
  ((cs.dropWhile Char.isWhitespace).reverse.dropWhile Char.isWhitespace).reverse

/-- Python `str.strip` on `String`. -/
def strip (s : String) : String := String.mk (trimL s.toList)

/-! ## Cells and numeric coercion -/

/-- One spreadsheet cell: a string, a numeric value, or missing (`NaN`). -/
inductive Cell where
  | str : String → Cell
  | num : ℚ → Cell
  | empty : Cell
deriving DecidableEq

/-- A raw sheet row after `raw.rename(columns=EXCEL_COLUMN_MAP)`: a map
from internal column name to the cell stored there. -/
def RawRow : Type := String → Cell

/-- Split a character list at the first `'.'` (decimal point), returning
the part before it and, when a dot exists, the part after it. -/
def splitDot : List Char → List Char × Option (List Char)
  | [] => ([], none)
  | c :: t =>
    if c = '.' then ([], some t)
    else
      let (i, f) := splitDot t
      (c :: i, f)

/-- Read a digit string as a natural number; `none` when any character is
not a decimal digit.  The empty list reads as `0` (callers rule out the
all-empty case separately). -/
def natOfDigits (cs : List Char) : Option ℕ :=
  if cs.all Char.isDigit then some (cs.foldl (fun a c => 10 * a + (c.toNat - 48)) 0)
  else none

/-- Parse a decimal number the way `pd.to_numeric(..., errors="coerce")`
accepts plain decimal literals: optional sign, then digits with at most
one decimal point (`"12"`, `"-3.5"`, `"5."`, `".5"`).  Anything else —
including `""` and `"N/A"` — yields `none`. -/
def parseNum (s : String) : Option ℚ :=
  let (neg, body) :=
    match s.toList with
    | '-' :: t => (true, t)
    | '+' :: t => (false, t)
    | t => (false, t)
  let sign : Int → Int := fun n => if neg then -n else n
  match splitDot body with
  | (ip, none) =>
    if ip.isEmpty then none
    else (natOfDigits ip).map fun n => mkRat (sign (Int.ofNat n)) 1
  | (ip, some fp) =>
    if ip.isEmpty && fp.isEmpty then none
    else if fp.contains '.' then none
    else
      match natOfDigits ip, natOfDigits fp with
      | some a, some b =>
        some (mkRat (sign (Int.ofNat (a * 10 ^ fp.length + b))) (10 ^ fp.length))
      | _, _ => none

/-- Model of `pd.to_numeric(cell, errors="coerce")` on one cell: numbers pass
through, strings are parsed, anything unparseable or missing is `none`
(pandas `NaN`).  Total — cell-level coercion can never raise. -/
def toNumeric : Cell → Option ℚ
  | Cell.num q => some q
  | Cell.str s => parseNum s
  | Cell.empty => none

/-- Numeric coercion as a cell-to-cell map (`NaN` for failures). -/
def toNumC (c : Cell) : Cell :=
  match toNumeric c with
  | some q => Cell.num q
  | none => Cell.empty

/-- Numpy / pandas `round` to zero decimals: round half to even. -/
def roundHalfEven (q : ℚ) : ℤ :=
  let f := Int.fract q
  if f < 1/2 then ⌊q⌋
  else if 1/2 < f then ⌊q⌋ + 1
  else if ⌊q⌋ % 2 = 0 then ⌊q⌋ else ⌊q⌋ + 1

/-- Model of `round(pd.to_numeric(cell, errors="coerce"))` on one cell: coerce,
then round half to even; `NaN` stays `NaN`. -/
def roundC (c : Cell) : Cell :=
  match toNumeric c with
  | some q => Cell.num (mkRat (roundHalfEven q) 1)
  | none => Cell.empty

/-- The helper `ft_in_to_ft` from `utils/conversions.py`: coerce both operands to
numeric and return `ft + inch / 12`; a `NaN` in either operand propagates
to a `NaN` result. -/
def ft_in_to_ft (ft inch : Cell) : Cell :=
  match toNumeric ft, toNumeric inch with
  | some a, some b => Cell.num (a + b / 12)
  | _, _ => Cell.empty

/-- The cleanup lambda `lambda x: None if isinstance(x, str) and len(x) < 4
else x` applied to the machinery text columns. -/
def nullShortText (c : Cell) : Cell :=
  match c with
  | Cell.str s => if s.length < 4 then Cell.empty else Cell.str s
  | c => c

/-! ## Section classification and row filtering -/

/-- Model of `raw["name"].astype(str)` on one row: the name cell as a string
(pandas renders a missing value as the string `"nan"`). -/
def nameStr (r : RawRow) : String :=
  match r "name" with
  | Cell.str s => s
  | Cell.num q => toString q
  | Cell.empty => "nan"

/-- The mask `mask_sections`: a row is a section marker iff its name contains
`"DISPLACEMENT"` case-insensitively. -/
def isSectionMarker (r : RawRow) : Bool :=
  containsCI (nameStr r) "DISPLACEMENT"

/-- The negation of `data["name"] != "Units"`: the literal units-legend row. -/
def isUnitsRow (r : RawRow) : Bool :=
  decide (r "name" = Cell.str "Units")

/-- The predicate `data["name"].isna()`: the name cell is missing. -/
def isEmptyName (r : RawRow) : Bool :=
  decide (r "name" = Cell.empty)

/-- A row survives step 4's filtering iff it is not a section marker, not
the `"Units"` row, and has a non-missing name. -/
def keepRow (r : RawRow) : Bool :=
  !isSectionMarker r && !isUnitsRow r && !isEmptyName r

/-- The function `normalize_displacement_type` from `alpha_csv_builder.py`: `NA` stays
`NA`; a label containing `"SEMI"` (case-insensitively) becomes
`"SEMI-DISPLACEMENT"`, else one containing `"FULL"` becomes
`"FULL DISPLACEMENT"`, else the original text is kept. -/
def normalize_displacement_type (x : Option String) : Option String :=
  match x with
  | none => none
  | some s =>
    if containsCI s "SEMI" then some "SEMI-DISPLACEMENT"
    else if containsCI s "FULL" then some "FULL DISPLACEMENT"
    else some s

/-- One step of the forward-fill scan: a marker row replaces the label in
force with its own stripped name, any other row keeps it. -/
def sectionStep (cur : Option String) (r : RawRow) : Option String :=
  if isSectionMarker r then some (strip (nameStr r)) else cur

/-- The marker/forward-fill pass (lines 60–69 of `alpha_csv_builder.py`):
scan rows top to bottom carrying the most recent section label
(`name_str.strip()` of the last marker seen); each row is paired with the
label in force after processing it. -/
def fillSections (cur : Option String) : List RawRow → List (RawRow × Option String)
  | [] => []
  | r :: rs => (r, sectionStep cur r) :: fillSections (sectionStep cur r) rs

/-- The `displacement_type` column after forward-fill and normalization
(line 84), one entry per raw row, `none` for pandas `NA`. -/
def dispColumn (rows : List RawRow) : List (Option String) :=
  (fillSections none rows).map fun p => normalize_displacement_type p.2

/-- Rows paired with their normalized `displacement_type`, before
filtering: the state of `raw` after line 84. -/
def withSections (rows : List RawRow) : List (RawRow × Option String) :=
  (fillSections none rows).map fun p => (p.1, normalize_displacement_type p.2)

/-- The cleaned dataset `data` (lines 88–97): classification and
normalization first, then the three row filters. -/
def cleanRows (rows : List RawRow) : List (RawRow × Option String) :=
  (withSections rows).filter fun p => keepRow p.1

/-! ## Column map and required headers (`config/excel_columns.py`) -/

/-- The mapping `EXCEL_COLUMN_MAP`: raw Excel header name → internal name. -/
def EXCEL_COLUMN_MAP : List (String × String) :=
  [("Name", "name"),
   ("Base Price (2023)", "base_price_million_eur"),
   ("Price / m2", "price_m2"),
   ("Price/GT  (Euros/Gross Ton)", "price_gt"),
   ("Price/Ton  (Euros/Metric Ton)", "price_ton"),
   ("LOA", "loa_m"),
   ("LWL", "lwl_m"),
   ("Max beam", "beam_m"),
   ("Draft at full load", "draft_full_m"),
   ("Unnamed: 14", "loa_ft"),
   ("Unnamed: 15", "loa_in"),
   ("Unnamed: 11", "lwl_ft"),
   ("Unnamed: 12", "lwl_in"),
   ("Unnamed: 17", "beam_ft"),
   ("Unnamed: 18", "beam_in"),
   ("Unnamed: 20", "draft_full_ft"),
   ("Unnamed: 21", "draft_full_in"),
   ("Area", "area_m2"),
   ("Material", "material"),
   ("Full load Displacement", "displacement_t"),
   ("Gross tonnage", "gross_tonnage"),
   ("Fuel oil capacity", "fuel_oil_cap"),
   ("Urea", "urea_cap"),
   ("Fresh water capacity", "fresh_water_cap"),
   ("Waste water capacity", "waste_water_cap"),
   ("Range @ Speed", "range_nm_raw"),
   ("Cruise speed (80%)", "cruise_speed_kn_raw"),
   ("Max speed", "max_speed_kn_raw"),
   ("Largest Engine", "engine_raw"),
   ("Consumption (Estimation)", "consumption_raw"),
   ("Propulsion", "propulsion_raw"),
   ("Generators (Recommended)", "generators_raw"),
   ("Bow thr.", "bow_thr_raw"),
   ("Stabilizers", "stabilizers_raw"),
   ("Guest cabins std", "guest_cabins_std_raw"),
   ("N. beds std", "guest_beds_std_raw"),
   ("N. guest bathr. std", "guest_bathrooms_std_raw"),
   ("Crew cabins", "crew_cabins_raw"),
   ("Crew Bathrooms", "crew_bathrooms_raw"),
   ("No. of Crew std", "crew_std_raw"),
   ("N. Jet ski (OPT)", "jet_ski_raw"),
   ("Length\nMain Tender", "tender_length_m"),
   ("Notes", "notes_raw")]

/-- The manifest `REQUIRED_EXCEL_COLUMNS = list(EXCEL_COLUMN_MAP.keys())`. -/
def REQUIRED_EXCEL_COLUMNS : List String :=
  EXCEL_COLUMN_MAP.map Prod.fst

/-! ## Field assembly and schema enforcement -/

/-- One entry of the cleaned dataset: a raw row together with its
forward-filled, normalized `displacement_type`. -/
abbrev Entry : Type := RawRow × Option String

/-- The `displacement_type` output cell for one entry. -/
def dispCell (e : Entry) : Cell :=
  match e.2 with
  | some s => Cell.str s
  | none => Cell.empty

/-- The `pd.DataFrame({...})` literal of lines 101–161: every output
column name paired with the function computing its cell from an entry, in
the dictionary's own assembly order. -/
def outSpec : List (String × (Entry → Cell)) :=
  [("name", fun e => e.1 "name"),
   ("base_price", fun e => toNumC (e.1 "base_price_million_eur")),
   ("price_m2", fun e => roundC (e.1 "price_m2")),
   ("price_gt", fun e => roundC (e.1 "price_gt")),
   ("price_ton", fun e => roundC (e.1 "price_ton")),
   ("loa_metric", fun e => toNumC (e.1 "loa_m")),
   ("loa_imperial", fun e => ft_in_to_ft (e.1 "loa_ft") (e.1 "loa_in")),
   ("lwl_metric", fun e => toNumC (e.1 "lwl_m")),
   ("lwl_imperial", fun e => ft_in_to_ft (e.1 "lwl_ft") (e.1 "lwl_in")),
   ("beam_metric", fun e => toNumC (e.1 "beam_m")),
   ("beam_imperial", fun e => ft_in_to_ft (e.1 "beam_ft") (e.1 "beam_in")),
   ("draft_full_load_metric", fun e => toNumC (e.1 "draft_full_m")),
   ("draft_full_load_imperial", fun e => ft_in_to_ft (e.1 "draft_full_ft") (e.1 "draft_full_in")),
   ("area", fun e => toNumC (e.1 "area_m2")),
   ("material", fun e => e.1 "material"),
   ("full_load_displacement_t", fun e => toNumC (e.1 "displacement_t")),
   ("gross_tonnage", fun e => toNumC (e.1 "gross_tonnage")),
   ("fuel_oil", fun e => toNumC (e.1 "fuel_oil_cap")),
   ("urea", fun e => toNumC (e.1 "urea_cap")),
   ("fresh_water", fun e => toNumC (e.1 "fresh_water_cap")),
   ("waste_water", fun e => toNumC (e.1 "waste_water_cap")),
   ("range_nm", fun e => toNumC (e.1 "range_nm_raw")),
   ("cruise_speed_kn", fun e => toNumC (e.1 "cruise_speed_kn_raw")),
   ("max_speed_kn", fun e => toNumC (e.1 "max_speed_kn_raw")),
   ("engine", fun e => e.1 "engine_raw"),
   ("consumption", fun e => roundC (e.1 "consumption_raw")),
   ("propulsion", fun e => e.1 "propulsion_raw"),
   ("generators", fun e => e.1 "generators_raw"),
   ("bow_thr", fun e => e.1 "bow_thr_raw"),
   ("stabilizers", fun e => e.1 "stabilizers_raw"),
   ("guest_cabins_std", fun e => toNumC (e.1 "guest_cabins_std_raw")),
   ("guest_beds_std", fun e => toNumC (e.1 "guest_beds_std_raw")),
   ("guest_bathrooms_std", fun e => toNumC (e.1 "guest_bathrooms_std_raw")),
   ("crew_cabins", fun e => toNumC (e.1 "crew_cabins_raw")),
   ("crew_bathrooms", fun e => toNumC (e.1 "crew_bathrooms_raw")),
   ("crew", fun e => toNumC (e.1 "crew_std_raw")),
   ("jet_ski", fun e => toNumC (e.1 "jet_ski_raw")),
   ("tender_length", fun e => toNumC (e.1 "tender_length_m")),
   ("displacement_type", fun e => dispCell e),
   ("notes", fun e => e.1 "notes_raw")]

/-- The assembled cell of one named output field for one entry
(`Cell.empty` for a field `outSpec` does not define). -/
def buildCell (n : String) (e : Entry) : Cell :=
  ((outSpec.find? fun c => c.1 == n).map fun c => c.2 e).getD Cell.empty

/-- A finalized table, column-major as a `DataFrame` is built: column
names paired with their cell lists. -/
abbrev Table : Type := List (String × List Cell)

/-- Build the `out` frame: every `outSpec` column evaluated over the
cleaned entries. -/
def assembleColumns (entries : List Entry) : Table :=
  outSpec.map fun c => (c.1, entries.map c.2)

/-- Line 164, `out = out[target_columns]`: select and reorder the
assembled columns to the template's order; missing columns are a fatal
lookup error, reported by name. -/
def selectColumns (t : Table) (template : List String) : Except (List String) Table :=
  if (template.filter fun c => !(t.map Prod.fst).contains c).isEmpty then
    Except.ok (template.filterMap fun c => t.find? fun col => col.1 == c)
  else Except.error (template.filter fun c => !(t.map Prod.fst).contains c)

/-- The net effect of the cleanup of lines 167–178 on a table that
contains all four machinery text columns: apply `nullShortText` to those
columns, leaving every other column unchanged. -/
def fixShortText (t : Table) : Table :=
  t.map fun col =>
    if col.1 == "engine" || col.1 == "generators" || col.1 == "bow_thr"
        || col.1 == "stabilizers" then
      (col.1, col.2.map nullShortText)
    else col

/-- The four columns the cleanup of lines 167–178 reads unconditionally,
in the order the source reads them. -/
def machineryTextColumns : List String :=
  ["engine", "generators", "bow_thr", "stabilizers"]

/-- The cleanup of lines 167–178, statement by statement: each
`out[n] = out[n].apply(...)` reads column `n` of the reordered frame and
replaces it with its `nullShortText` image; reading an absent column
raises `KeyError(n)`, modelled as `Except.error n` at the first absent
name. -/
def applyShortTextFix (t : Table) : List String → Except String Table
  | [] => Except.ok t
  | n :: ns =>
    if (t.map Prod.fst).contains n then
      applyShortTextFix
        (t.map fun col => if col.1 == n then (col.1, col.2.map nullShortText) else col) ns
    else Except.error n

/-- The fatal error taxonomy of `build_master_csv`: missing required
Excel headers or assembled fields not covering the template (the spec's
`SchemaMismatch`), and the `KeyError` raised at lines 167–178 when the
reordered frame lacks a machinery text column. -/
inductive EtlError where
  | missingColumns (missing : List String) (available : List String)
  | missingFields (missing : List String)
  | keyError (name : String)
deriving DecidableEq

/-- The pipeline `build_master_csv`: validate required headers (lines 42–47), classify
sections and forward-fill (54–84), filter rows (88–97), assemble the
output columns (101–161), enforce the template order (164), and null the
short machinery text (167–178, raising on an absent machinery column).
File I/O is abstracted away: the template's header list, the raw sheet's
header list and its rows come in as arguments, and the finished table is
returned instead of written. -/
def build_master_csv (templateCols : List String) (rawHeaders : List String)
    (rows : List RawRow) : Except EtlError Table :=
  if (REQUIRED_EXCEL_COLUMNS.filter fun c => !rawHeaders.contains c).isEmpty then
    match selectColumns (assembleColumns (cleanRows rows)) templateCols with
    | Except.ok t =>
      match applyShortTextFix t machineryTextColumns with
      | Except.ok t2 => Except.ok t2
      | Except.error n => Except.error (EtlError.keyError n)
    | Except.error m => Except.error (EtlError.missingFields m)
  else
    Except.error (EtlError.missingColumns
      (REQUIRED_EXCEL_COLUMNS.filter fun c => !rawHeaders.contains c) rawHeaders)

/-- A sheet row holding just a name cell (every other column missing), for
concrete runs. -/
def mkNameRow (s : String) : RawRow :=
  fun c => if c = "name" then Cell.str s else Cell.empty

/-! ## Structural lemmas about the forward-fill pass -/

lemma fillSections_map_fst (cur : Option String) (rows : List RawRow) :
    (fillSections cur rows).map Prod.fst = rows := by
  induction rows generalizing cur with
  | nil => rfl
  | cons r rs ih => simp [fillSections, ih]

lemma withSections_map_fst (rows : List RawRow) :
    (withSections rows).map Prod.fst = rows := by
  unfold withSections
  rw [List.map_map]
  exact fillSections_map_fst none rows

lemma fillSections_snd_getElem (cur : Option String) (rows : List RawRow)
    (i : ℕ) (hi : i < rows.length) :
    ((fillSections cur rows).map Prod.snd)[i]? =
      some ((rows.take (i + 1)).foldl sectionStep cur) := by
  induction rows generalizing cur i with
  | nil => simp at hi
  | cons r rs ih =>
    cases i with
    | zero => simp [fillSections]
    | succ i =>
      have hi' : i < rs.length := by simpa using hi
      simp only [fillSections, List.map_cons, List.getElem?_cons_succ, List.take_succ_cons,
        List.foldl_cons]
      exact ih (sectionStep cur r) i hi'

lemma foldl_sectionStep_spec (rows : List RawRow) (cur : Option String) :
    rows.foldl sectionStep cur =
      ((rows.filter isSectionMarker).getLast?).elim cur fun m => some (strip (nameStr m)) := by
  induction rows using List.reverseRecOn with
  | nil => rfl
  | append_singleton rs r ih =>
    rw [List.foldl_append, List.filter_append]
    by_cases hm : isSectionMarker r
    · simp [sectionStep, hm, List.getLast?_concat]
    · simp only [List.foldl_cons, List.foldl_nil, sectionStep, hm, if_false,
        List.filter_cons, List.filter_nil, Bool.false_eq_true, List.append_nil]
      exact ih

/-! ## Disjointness of the three removal predicates, and counting -/

lemma isUnitsRow_not_marker (r : RawRow) (h : isUnitsRow r = true) :
    isSectionMarker r = false := by
  have hn : r "name" = Cell.str "Units" := of_decide_eq_true h
  simp only [isSectionMarker, nameStr, hn]
  decide

lemma isEmptyName_not_marker (r : RawRow) (h : isEmptyName r = true) :
    isSectionMarker r = false := by
  have hn : r "name" = Cell.empty := of_decide_eq_true h
  simp only [isSectionMarker, nameStr, hn]
  decide

lemma isUnitsRow_not_emptyName (r : RawRow) (h : isUnitsRow r = true) :
    isEmptyName r = false := by
  have hn : r "name" = Cell.str "Units" := of_decide_eq_true h
  simp [isEmptyName, hn]

lemma count_partition (rows : List RawRow) :
    (rows.filter keepRow).length
      + ((rows.filter isSectionMarker).length + (rows.filter isUnitsRow).length
          + (rows.filter isEmptyName).length)
      = rows.length := by
  induction rows with
  | nil => rfl
  | cons r rs ih =>
    rcases hm : isSectionMarker r with _ | _
    · rcases hu : isUnitsRow r with _ | _
      · rcases he : isEmptyName r with _ | _
        · simp only [List.filter_cons, hm, hu, he, keepRow, Bool.not_false, Bool.and_self,
            cond_true, cond_false, Bool.false_eq_true, if_false, if_true, Bool.true_and,
            Bool.and_true, List.length_cons]
          omega
        · simp only [List.filter_cons, hm, hu, he, keepRow, Bool.not_false, Bool.not_true,
            Bool.false_eq_true, Bool.true_and, Bool.and_false, if_false, if_true,
            List.length_cons]
          omega
      · have he := isUnitsRow_not_emptyName r hu
        simp only [List.filter_cons, hm, hu, he, keepRow, Bool.not_false, Bool.not_true,
          Bool.false_eq_true, Bool.false_and, Bool.true_and, if_false, if_true,
          List.length_cons]
        omega
    · have hu : isUnitsRow r = false := by
        rcases h : isUnitsRow r with _ | _
        · rfl
        · rw [isUnitsRow_not_marker r h] at hm; exact hm.symm
      have he : isEmptyName r = false := by
        rcases h : isEmptyName r with _ | _
        · rfl
        · rw [isEmptyName_not_marker r h] at hm; exact hm.symm
      simp only [List.filter_cons, hm, hu, he, keepRow, Bool.not_true, Bool.false_and,
        Bool.false_eq_true, if_false, if_true, List.length_cons]
      omega

lemma map_fst_filter_fst {α β : Type} (l : List (α × β)) (p : α → Bool) :
    ((l.filter fun x => p x.1).map Prod.fst) = (l.map Prod.fst).filter p := by
  induction l with
  | nil => rfl
  | cons a l ih =>
    rcases h : p a.1 with _ | _ <;> simp [List.filter_cons, h, ih]

lemma cleanRows_map_fst (rows : List RawRow) :
    (cleanRows rows).map Prod.fst = rows.filter keepRow := by
  unfold cleanRows
  rw [map_fst_filter_fst, withSections_map_fst]

lemma length_cleanRows (rows : List RawRow) :
    (cleanRows rows).length = (rows.filter keepRow).length := by
  have h := congrArg List.length (cleanRows_map_fst rows)
  simpa using h

/-! ## Schema-enforcement lemmas -/

lemma assembleColumns_map_fst (entries : List Entry) :
    (assembleColumns entries).map Prod.fst = outSpec.map Prod.fst := by
  simp [assembleColumns, List.map_map]

lemma mem_assembleColumns_length (entries : List Entry) (col : String × List Cell)
    (h : col ∈ assembleColumns entries) : col.2.length = entries.length := by
  unfold assembleColumns at h
  obtain ⟨c, _, hc⟩ := List.mem_map.mp h
  rw [← hc]
  simp

lemma filterMap_find?_fst (t : Table) (tc : List String)
    (hall : ∀ c ∈ tc, (t.map Prod.fst).contains c = true) :
    (tc.filterMap fun c => t.find? fun col => col.1 == c).map Prod.fst = tc := by
  induction tc with
  | nil => rfl
  | cons c tc ih =>
    have hc : (t.map Prod.fst).contains c = true := hall c (List.mem_cons_self c tc)
    have hex : ∃ col ∈ t, (col.1 == c) = true := by
      rw [List.contains_iff_exists_mem_beq] at hc
      obtain ⟨a, ha, hbeq⟩ := hc
      obtain ⟨col, hcol, rfl⟩ := List.mem_map.mp ha
      have heq : c = col.1 := eq_of_beq hbeq
      exact ⟨col, hcol, beq_iff_eq.mpr heq.symm⟩
    have hsome : (t.find? fun col => col.1 == c).isSome := by
      rw [List.find?_isSome]
      obtain ⟨col, h1, h2⟩ := hex
      exact ⟨col, h1, h2⟩
    obtain ⟨col, hfind⟩ := Option.isSome_iff_exists.mp hsome
    have hname : col.1 = c := by
      have := List.find?_some hfind
      exact eq_of_beq this
    rw [List.filterMap_cons, hfind, List.map_cons, hname]
    congr 1
    exact ih fun c' hc' => hall c' (List.mem_cons_of_mem c hc')

lemma selectColumns_ok_fst (t : Table) (tc : List String) (t2 : Table)
    (h : selectColumns t tc = Except.ok t2) : t2.map Prod.fst = tc := by
  unfold selectColumns at h
  split at h
  case isFalse => exact absurd h (by simp)
  case isTrue hempty =>
    have ht2 : t2 = tc.filterMap fun c => t.find? fun col => col.1 == c := by
      injection h with h'
      exact h'.symm
    have hall : ∀ c ∈ tc, (t.map Prod.fst).contains c = true := by
      intro c hc
      by_contra hnc
      have hmem : c ∈ tc.filter fun c => !(t.map Prod.fst).contains c := by
        rw [List.mem_filter]
        refine ⟨hc, ?_⟩
        rcases hcc : (t.map Prod.fst).contains c with _ | _
        · rfl
        · exact absurd hcc hnc
      rw [List.isEmpty_iff] at hempty
      rw [hempty] at hmem
      exact absurd hmem (List.not_mem_nil c)
    rw [ht2]
    exact filterMap_find?_fst t tc hall

lemma selectColumns_ok_mem (t : Table) (tc : List String) (t2 : Table)
    (h : selectColumns t tc = Except.ok t2) : ∀ col ∈ t2, col ∈ t := by
  unfold selectColumns at h
  split at h
  case isFalse => exact absurd h (by simp)
  case isTrue =>
    have ht2 : t2 = tc.filterMap fun c => t.find? fun col => col.1 == c := by
      injection h with h'
      exact h'.symm
    subst ht2
    intro col hcol
    obtain ⟨c, _, hfind⟩ := List.mem_filterMap.mp hcol
    exact List.mem_of_find?_eq_some hfind

lemma selectColumns_error_of_missing (t : Table) (tc : List String) (c : String)
    (hc : c ∈ tc) (hnc : (t.map Prod.fst).contains c = false) :
    ∃ m, selectColumns t tc = Except.error m ∧ c ∈ m := by
  unfold selectColumns
  have hmem : c ∈ tc.filter fun c => !(t.map Prod.fst).contains c := by
    rw [List.mem_filter]
    refine ⟨hc, ?_⟩
    rw [hnc]
    rfl
  have hne : (tc.filter fun c => !(t.map Prod.fst).contains c).isEmpty = false := by
    rcases h : (tc.filter fun c => !(t.map Prod.fst).contains c).isEmpty with _ | _
    · rfl
    · rw [List.isEmpty_iff] at h
      rw [h] at hmem
      exact absurd hmem (List.not_mem_nil c)
  simp only [hne, Bool.false_eq_true, if_false]
  exact ⟨_, rfl, hmem⟩

lemma fixShortText_map_fst (t : Table) :
    (fixShortText t).map Prod.fst = t.map Prod.fst := by
  unfold fixShortText
  rw [List.map_map]
  apply List.map_congr_left
  intro col _
  show Prod.fst (if _ then _ else _) = col.1
  split <;> rfl

lemma mem_fixShortText_length (t : Table) (col : String × List Cell)
    (h : col ∈ fixShortText t) : ∃ col' ∈ t, col.2.length = col'.2.length := by
  unfold fixShortText at h
  obtain ⟨col', hmem, hcol⟩ := List.mem_map.mp h
  refine ⟨col', hmem, ?_⟩
  rw [← hcol]
  split <;> simp

lemma applyShortTextFix_map_fst (ns : List String) (t t2 : Table)
    (h : applyShortTextFix t ns = Except.ok t2) : t2.map Prod.fst = t.map Prod.fst := by
  induction ns generalizing t with
  | nil =>
    unfold applyShortTextFix at h
    injection h with h'
    rw [h']
  | cons n ns ih =>
    unfold applyShortTextFix at h
    split at h
    case isFalse => exact absurd h (by simp)
    case isTrue =>
      rw [ih _ h, List.map_map]
      apply List.map_congr_left
      intro col _
      show Prod.fst (if _ then _ else _) = col.1
      split <;> rfl

lemma applyShortTextFix_mem_length (ns : List String) (t t2 : Table)
    (h : applyShortTextFix t ns = Except.ok t2) :
    ∀ col ∈ t2, ∃ col' ∈ t, col.2.length = col'.2.length := by
  induction ns generalizing t with
  | nil =>
    unfold applyShortTextFix at h
    injection h with h'
    intro col hcol
    rw [← h'] at hcol
    exact ⟨col, hcol, rfl⟩
  | cons n ns ih =>
    unfold applyShortTextFix at h
    split at h
    case isFalse => exact absurd h (by simp)
    case isTrue =>
      intro col hcol
      obtain ⟨col', hmem', hlen⟩ := ih _ h col hcol
      obtain ⟨col'', hmem'', hcol''⟩ := List.mem_map.mp hmem'
      refine ⟨col'', hmem'', ?_⟩
      rw [hlen, ← hcol'']
      split <;> simp

/-! ## Rounding lemmas -/

lemma mkRat_intCast (m : ℤ) : (mkRat m 1 : ℚ) = (m : ℚ) := by
  rw [Rat.mkRat_one]

lemma roundHalfEven_dist (q : ℚ) : |q - (roundHalfEven q : ℚ)| ≤ 1/2 := by
  have h0 : 0 ≤ Int.fract q := Int.fract_nonneg q
  have h1 : Int.fract q < 1 := Int.fract_lt_one q
  have hq : q - (⌊q⌋ : ℚ) = Int.fract q := Int.self_sub_floor q
  unfold roundHalfEven
  rcases lt_trichotomy (Int.fract q) (1/2) with hlt | heq | hgt
  · rw [if_pos hlt, abs_le]
    constructor <;> linarith
  · rw [if_neg (by linarith), if_neg (by linarith)]
    split <;> (rw [abs_le]; constructor <;> push_cast <;> linarith)
  · rw [if_neg (by linarith), if_pos hgt, abs_le]
    constructor <;> push_cast <;> linarith

lemma roundHalfEven_nearest (q : ℚ) (n : ℤ) :
    |q - (roundHalfEven q : ℚ)| ≤ |q - (n : ℚ)| := by
  by_cases hn : n = roundHalfEven q
  · rw [hn]
  · have hz : roundHalfEven q - n ≠ 0 := sub_ne_zero.mpr fun h => hn h.symm
    have h1 : (1 : ℤ) ≤ |roundHalfEven q - n| := Int.one_le_abs hz
    have h1q : (1 : ℚ) ≤ |(roundHalfEven q : ℚ) - (n : ℚ)| := by
      exact_mod_cast h1
    have hd := roundHalfEven_dist q
    have htri : |(roundHalfEven q : ℚ) - (n : ℚ)|
        ≤ |(roundHalfEven q : ℚ) - q| + |q - (n : ℚ)| := abs_sub_le _ q _
    have hcomm : |(roundHalfEven q : ℚ) - q| = |q - (roundHalfEven q : ℚ)| :=
      abs_sub_comm _ _
    linarith

/-! ## Sample sheets for concrete runs -/

/-- The spec's forward-fill example with the second marker's name spelled
so that it actually is a marker (contains "DISPLACEMENT"). -/
def exampleRowsFixed : List RawRow :=
  [mkNameRow "FULL DISPLACEMENT", mkNameRow "A", mkNameRow "B",
   mkNameRow "SEMI DISPLACEMENT", mkNameRow "C"]

/-- The spec's forward-fill example verbatim: the second "marker" is a row
named "Semi Disp.". -/
def exampleRowsSpec : List RawRow :=
  [mkNameRow "FULL DISPLACEMENT", mkNameRow "A", mkNameRow "B",
   mkNameRow "Semi Disp.", mkNameRow "C"]

/-- A small sheet exercising every removal predicate: two markers, a
units-legend row, a missing name, and two yacht rows. -/
def sampleSheet : List RawRow :=
  [mkNameRow "FULL DISPLACEMENT", mkNameRow "Units", mkNameRow "Alpha",
   (fun _ => Cell.empty : RawRow), mkNameRow "SEMI DISPLACEMENT", mkNameRow "Beta"]

/-! ## Claim theorems -/

/-- C1 (amended): a row is a SectionMarker exactly when its name field
case-insensitively contains "DISPLACEMENT", and every non-marker row's
`displacement_type` is the normalized stripped label of the nearest
preceding SectionMarker (forward-fill only — `none` when no marker
precedes).  In the example `[Marker "FULL DISPLACEMENT", A, B,
Marker "SEMI DISPLACEMENT", C]` rows A and B resolve to
"FULL DISPLACEMENT" and row C to "SEMI-DISPLACEMENT". -/
theorem section_forward_fill :
    (∀ r : RawRow, isSectionMarker r = containsCI (nameStr r) "DISPLACEMENT") ∧
    (∀ (rows : List RawRow) (i : ℕ) (r : RawRow), rows[i]? = some r →
      isSectionMarker r = false →
      (dispColumn rows)[i]? = some (normalize_displacement_type
        ((((rows.take i).filter isSectionMarker).getLast?).map fun m => strip (nameStr m)))) ∧
    ((dispColumn exampleRowsFixed)[1]? = some (some "FULL DISPLACEMENT")
      ∧ (dispColumn exampleRowsFixed)[2]? = some (some "FULL DISPLACEMENT")
      ∧ (dispColumn exampleRowsFixed)[4]? = some (some "SEMI-DISPLACEMENT")) := by
  refine ⟨fun r => rfl, ?_, by decide⟩
  intro rows i r hget hmark
  have hi : i < rows.length := by
    rcases List.getElem?_eq_some.mp hget with ⟨h, _⟩
    exact h
  have hmap : dispColumn rows
      = ((fillSections none rows).map Prod.snd).map normalize_displacement_type := by
    unfold dispColumn
    rw [List.map_map]
    rfl
  rw [hmap, List.getElem?_map, fillSections_snd_getElem none rows i hi]
  have htake : rows.take (i + 1) = rows.take i ++ [r] := by
    rw [List.take_succ, hget]
    rfl
  rw [htake, List.foldl_append]
  simp only [List.foldl_cons, List.foldl_nil]
  rw [show sectionStep ((rows.take i).foldl sectionStep none) r
      = (rows.take i).foldl sectionStep none by
    unfold sectionStep
    rw [hmark]
    rfl]
  rw [foldl_sectionStep_spec]
  cases ((rows.take i).filter isSectionMarker).getLast? <;> rfl

/-- C1 counterexample to the claim's literal example: a row named
"Semi Disp." does not contain "DISPLACEMENT", so it is NOT classified as a
SectionMarker; it survives filtering as a data row, and row C resolves to
"FULL DISPLACEMENT", not "SEMI-DISPLACEMENT". -/
theorem semi_disp_counterexample :
    isSectionMarker (mkNameRow "Semi Disp.") = false
    ∧ (dispColumn exampleRowsSpec)[4]? = some (some "FULL DISPLACEMENT")
    ∧ (some (some "FULL DISPLACEMENT") : Option (Option String))
        ≠ some (some "SEMI-DISPLACEMENT")
    ∧ keepRow (mkNameRow "Semi Disp.") = true := by decide

theorem section_forward_fill_witness :
    (dispColumn exampleRowsFixed)[2]? = some (normalize_displacement_type
      ((((exampleRowsFixed.take 2).filter isSectionMarker).getLast?).map
        fun m => strip (nameStr m))) :=
  section_forward_fill.2.1 exampleRowsFixed 2 (mkNameRow "B") (by rfl) (by decide)

/-- C8: label normalization maps a text containing "SEMI"
(case-insensitively) to "SEMI-DISPLACEMENT", else one containing "FULL" to
"FULL DISPLACEMENT", and otherwise keeps the original text unchanged. -/
theorem normalize_displacement_type_cases :
    (∀ s : String, containsCI s "SEMI" = true →
      normalize_displacement_type (some s) = some "SEMI-DISPLACEMENT") ∧
    (∀ s : String, containsCI s "SEMI" = false → containsCI s "FULL" = true →
      normalize_displacement_type (some s) = some "FULL DISPLACEMENT") ∧
    (∀ s : String, containsCI s "SEMI" = false → containsCI s "FULL" = false →
      normalize_displacement_type (some s) = some s) ∧
    normalize_displacement_type none = none := by
  refine ⟨?_, ?_, ?_, rfl⟩
  · intro s h
    simp [normalize_displacement_type, h]
  · intro s h1 h2
    simp [normalize_displacement_type, h1, h2]
  · intro s h1 h2
    simp [normalize_displacement_type, h1, h2]

theorem normalize_displacement_type_cases_witness :
    normalize_displacement_type (some "Semi Disp.") = some "SEMI-DISPLACEMENT"
    ∧ normalize_displacement_type (some "FULL DISPLACEMENT") = some "FULL DISPLACEMENT"
    ∧ normalize_displacement_type (some "Planing") = some "Planing" :=
  ⟨normalize_displacement_type_cases.1 "Semi Disp." (by decide),
   normalize_displacement_type_cases.2.1 "FULL DISPLACEMENT" (by decide) (by decide),
   normalize_displacement_type_cases.2.2.1 "Planing" (by decide) (by decide)⟩

/-- C2: for every raw sheet, output rows = input rows minus SectionMarker
rows, minus rows named "Units", minus rows with a missing name; the three
removal predicates are pairwise disjoint; filtering runs on the
already-classified rows (after forward-fill); and every column of a
successful run's table has exactly that many entries. -/
theorem row_count_law :
    (∀ rows : List RawRow,
      (cleanRows rows).length
        + ((rows.filter isSectionMarker).length + (rows.filter isUnitsRow).length
            + (rows.filter isEmptyName).length)
        = rows.length) ∧
    (∀ rows : List RawRow,
      (cleanRows rows).length
        = rows.length - (rows.filter isSectionMarker).length
            - (rows.filter isUnitsRow).length - (rows.filter isEmptyName).length) ∧
    (∀ r, isUnitsRow r = true → isSectionMarker r = false) ∧
    (∀ r, isEmptyName r = true → isSectionMarker r = false) ∧
    (∀ r, isUnitsRow r = true → isEmptyName r = false) ∧
    (∀ rows, cleanRows rows = (withSections rows).filter fun p => keepRow p.1) ∧
    (∀ templateCols rawHeaders rows t,
      build_master_csv templateCols rawHeaders rows = Except.ok t →
      ∀ col ∈ t, col.2.length = (cleanRows rows).length) := by
  have hsum : ∀ rows : List RawRow,
      (cleanRows rows).length
        + ((rows.filter isSectionMarker).length + (rows.filter isUnitsRow).length
            + (rows.filter isEmptyName).length)
        = rows.length := by
    intro rows
    rw [length_cleanRows]
    exact count_partition rows
  refine ⟨hsum, ?_, isUnitsRow_not_marker, isEmptyName_not_marker,
    isUnitsRow_not_emptyName, fun rows => rfl, ?_⟩
  · intro rows
    have := hsum rows
    omega
  · intro templateCols rawHeaders rows t h col hcol
    unfold build_master_csv at h
    split at h
    case isFalse => exact absurd h (by simp)
    case isTrue =>
      rcases hsel : selectColumns (assembleColumns (cleanRows rows)) templateCols with m | t'
      · rw [hsel] at h
        exact absurd h (by simp)
      · rw [hsel] at h
        have h2 : (match applyShortTextFix t' machineryTextColumns with
            | Except.ok t2 => Except.ok t2
            | Except.error n => Except.error (EtlError.keyError n)) = Except.ok t := h
        rcases hfix : applyShortTextFix t' machineryTextColumns with n | t2
        · rw [hfix] at h2
          exact absurd h2 (by simp)
        · rw [hfix] at h2
          have ht : t = t2 := by
            injection h2 with h'
            exact h'.symm
          subst ht
          obtain ⟨col', hmem', hlen⟩ := applyShortTextFix_mem_length _ _ _ hfix col hcol
          have hmem'' : col' ∈ assembleColumns (cleanRows rows) :=
            selectColumns_ok_mem _ _ _ hsel col' hmem'
          rw [hlen]
          exact mem_assembleColumns_length _ _ hmem''

theorem row_count_law_witness :
    (cleanRows sampleSheet).length
      + ((sampleSheet.filter isSectionMarker).length
          + (sampleSheet.filter isUnitsRow).length
          + (sampleSheet.filter isEmptyName).length) = sampleSheet.length
    ∧ isSectionMarker (mkNameRow "Units") = false :=
  ⟨row_count_law.1 sampleSheet,
   row_count_law.2.2.1 (mkNameRow "Units") (by decide)⟩

/-- C3: a successful run's table has exactly the template's column
sequence, in the template's order, regardless of the assembly order of
`outSpec`; and when the assembled field set does not cover some template
field, the run returns a schema error instead of any output table. -/
theorem schema_order_law :
    (∀ templateCols rawHeaders rows t,
      build_master_csv templateCols rawHeaders rows = Except.ok t →
      t.map Prod.fst = templateCols) ∧
    (∀ templateCols rawHeaders rows c, c ∈ templateCols →
      ((assembleColumns (cleanRows rows)).map Prod.fst).contains c = false →
      ∀ t, build_master_csv templateCols rawHeaders rows ≠ Except.ok t) := by
  constructor
  · intro templateCols rawHeaders rows t h
    unfold build_master_csv at h
    split at h
    case isFalse => exact absurd h (by simp)
    case isTrue =>
      rcases hsel : selectColumns (assembleColumns (cleanRows rows)) templateCols with m | t'
      · rw [hsel] at h
        exact absurd h (by simp)
      · rw [hsel] at h
        have h2 : (match applyShortTextFix t' machineryTextColumns with
            | Except.ok t2 => Except.ok t2
            | Except.error n => Except.error (EtlError.keyError n)) = Except.ok t := h
        rcases hfix : applyShortTextFix t' machineryTextColumns with n | t2
        · rw [hfix] at h2
          exact absurd h2 (by simp)
        · rw [hfix] at h2
          have ht : t = t2 := by
            injection h2 with h'
            exact h'.symm
          subst ht
          rw [applyShortTextFix_map_fst _ _ _ hfix]
          exact selectColumns_ok_fst _ _ _ hsel
  · intro templateCols rawHeaders rows c hc hnc t h
    unfold build_master_csv at h
    split at h
    case isFalse => exact absurd h (by simp)
    case isTrue =>
      obtain ⟨m, hm, _⟩ :=
        selectColumns_error_of_missing (assembleColumns (cleanRows rows)) templateCols c hc hnc
      rw [hm] at h
      exact absurd h (by simp)

lemma build_keyError_example :
    build_master_csv ["name", "engine"] REQUIRED_EXCEL_COLUMNS sampleSheet
      = Except.error (EtlError.keyError "generators") := by rfl

theorem schema_order_law_witness :
    build_master_csv (outSpec.map Prod.fst) REQUIRED_EXCEL_COLUMNS sampleSheet
        = Except.ok ((applyShortTextFix (selectColumns
            (assembleColumns (cleanRows sampleSheet)) (outSpec.map Prod.fst)
            |>.toOption.getD []) machineryTextColumns).toOption.getD [])
    ∧ ((applyShortTextFix (selectColumns
            (assembleColumns (cleanRows sampleSheet)) (outSpec.map Prod.fst)
            |>.toOption.getD []) machineryTextColumns).toOption.getD []).map Prod.fst
        = outSpec.map Prod.fst := by
  have h : build_master_csv (outSpec.map Prod.fst) REQUIRED_EXCEL_COLUMNS sampleSheet
      = Except.ok ((applyShortTextFix (selectColumns
          (assembleColumns (cleanRows sampleSheet)) (outSpec.map Prod.fst)
          |>.toOption.getD []) machineryTextColumns).toOption.getD []) := by rfl
  exact ⟨h, schema_order_law.1 _ REQUIRED_EXCEL_COLUMNS sampleSheet _ h⟩

/-- The required-header list with "Max beam" removed: a sheet whose
header set omits exactly one required header. -/
def headersWithoutMaxBeam : List String :=
  REQUIRED_EXCEL_COLUMNS.filter fun c => !(c == "Max beam")

/-- C4: when at least one required Excel header is absent from the
uploaded sheet, the pipeline fails with an error carrying the complete
list of missing required headers and echoing the headers actually found;
no table is produced, and every absent required header is named. -/
theorem missing_headers_abort :
    (∀ templateCols rawHeaders rows,
      (∃ c ∈ REQUIRED_EXCEL_COLUMNS, rawHeaders.contains c = false) →
      build_master_csv templateCols rawHeaders rows
        = Except.error (EtlError.missingColumns
            (REQUIRED_EXCEL_COLUMNS.filter fun c => !rawHeaders.contains c) rawHeaders)) ∧
    (∀ (rawHeaders : List String) (c : String), c ∈ REQUIRED_EXCEL_COLUMNS →
      rawHeaders.contains c = false →
      c ∈ REQUIRED_EXCEL_COLUMNS.filter fun c => !rawHeaders.contains c) ∧
    (∀ templateCols rawHeaders rows t,
      (∃ c ∈ REQUIRED_EXCEL_COLUMNS, rawHeaders.contains c = false) →
      build_master_csv templateCols rawHeaders rows ≠ Except.ok t) := by
  have hmem : ∀ (rawHeaders : List String) (c : String), c ∈ REQUIRED_EXCEL_COLUMNS →
      rawHeaders.contains c = false →
      c ∈ REQUIRED_EXCEL_COLUMNS.filter fun c => !rawHeaders.contains c := by
    intro rawHeaders c hc hnc
    rw [List.mem_filter]
    refine ⟨hc, ?_⟩
    rw [hnc]
    rfl
  have herr : ∀ (templateCols rawHeaders : List String) (rows : List RawRow),
      (∃ c ∈ REQUIRED_EXCEL_COLUMNS, rawHeaders.contains c = false) →
      build_master_csv templateCols rawHeaders rows
        = Except.error (EtlError.missingColumns
            (REQUIRED_EXCEL_COLUMNS.filter fun c => !rawHeaders.contains c) rawHeaders) := by
    intro templateCols rawHeaders rows ⟨c, hc, hnc⟩
    have hne : (REQUIRED_EXCEL_COLUMNS.filter fun c => !rawHeaders.contains c).isEmpty
        = false := by
      rcases h : (REQUIRED_EXCEL_COLUMNS.filter fun c => !rawHeaders.contains c).isEmpty
        with _ | _
      · rfl
      · rw [List.isEmpty_iff] at h
        have := hmem rawHeaders c hc hnc
        rw [h] at this
        exact absurd this (List.not_mem_nil c)
    unfold build_master_csv
    simp only [hne, Bool.false_eq_true, if_false]
  refine ⟨herr, hmem, ?_⟩
  intro templateCols rawHeaders rows t hex h
  rw [herr templateCols rawHeaders rows hex] at h
  exact absurd h (by simp)

theorem missing_headers_abort_witness :
    build_master_csv [] headersWithoutMaxBeam []
      = Except.error (EtlError.missingColumns
          (REQUIRED_EXCEL_COLUMNS.filter fun c => !headersWithoutMaxBeam.contains c)
          headersWithoutMaxBeam)
    ∧ "Max beam" ∈ REQUIRED_EXCEL_COLUMNS.filter fun c => !headersWithoutMaxBeam.contains c :=
  ⟨missing_headers_abort.1 [] headersWithoutMaxBeam [] (by decide),
   missing_headers_abort.2.1 headersWithoutMaxBeam "Max beam" (by decide) (by decide)⟩

/-- The plain (unrounded) numeric output fields, each paired with the
internal source column `pd.to_numeric` is applied to in lines 101–161. -/
def numericFieldPairs : List (String × String) :=
  [("base_price", "base_price_million_eur"),
   ("loa_metric", "loa_m"),
   ("lwl_metric", "lwl_m"),
   ("beam_metric", "beam_m"),
   ("draft_full_load_metric", "draft_full_m"),
   ("area", "area_m2"),
   ("full_load_displacement_t", "displacement_t"),
   ("gross_tonnage", "gross_tonnage"),
   ("fuel_oil", "fuel_oil_cap"),
   ("urea", "urea_cap"),
   ("fresh_water", "fresh_water_cap"),
   ("waste_water", "waste_water_cap"),
   ("range_nm", "range_nm_raw"),
   ("cruise_speed_kn", "cruise_speed_kn_raw"),
   ("max_speed_kn", "max_speed_kn_raw"),
   ("guest_cabins_std", "guest_cabins_std_raw"),
   ("guest_beds_std", "guest_beds_std_raw"),
   ("guest_bathrooms_std", "guest_bathrooms_std_raw"),
   ("crew_cabins", "crew_cabins_raw"),
   ("crew_bathrooms", "crew_bathrooms_raw"),
   ("crew", "crew_std_raw"),
   ("jet_ski", "jet_ski_raw"),
   ("tender_length", "tender_length_m")]

/-- C5: every numeric output field is the total coercion `toNumC` of its
source cell; a cell that fails to parse as a number — `"N/A"`, the empty
string, or any other unparseable value — becomes null, and the coercion
of any cell is always either null or a number (it has no error outcome,
so it can never abort the pipeline).  The rounded fields and the imperial
composites null out unparseable cells the same way. -/
theorem numeric_coercion_total :
    (∀ p ∈ numericFieldPairs, ∀ e : Entry, buildCell p.1 e = toNumC (e.1 p.2)) ∧
    (∀ s, parseNum s = none → toNumC (Cell.str s) = Cell.empty) ∧
    (∀ c, toNumC c = Cell.empty ∨ ∃ q, toNumC c = Cell.num q) ∧
    (toNumC (Cell.str "N/A") = Cell.empty ∧ toNumC (Cell.str "") = Cell.empty
      ∧ toNumC Cell.empty = Cell.empty) ∧
    (∀ s, parseNum s = none → roundC (Cell.str s) = Cell.empty) ∧
    (∀ s c, parseNum s = none →
      ft_in_to_ft (Cell.str s) c = Cell.empty ∧ ft_in_to_ft c (Cell.str s) = Cell.empty) := by
  refine ⟨?_, ?_, ?_, by decide, ?_, ?_⟩
  · intro p hp e
    fin_cases hp <;> rfl
  · intro s h
    simp [toNumC, toNumeric, h]
  · intro c
    unfold toNumC
    cases toNumeric c with
    | none => exact Or.inl rfl
    | some q => exact Or.inr ⟨q, rfl⟩
  · intro s h
    simp [roundC, toNumeric, h]
  · intro s c h
    constructor
    · simp [ft_in_to_ft, toNumeric, h]
    · unfold ft_in_to_ft
      cases toNumeric c <;> simp [toNumeric, h]

theorem numeric_coercion_total_witness :
    buildCell "area" (mkNameRow "Alpha", none) = toNumC ((mkNameRow "Alpha" : RawRow) "area_m2")
    ∧ toNumC (Cell.str "N/A") = Cell.empty :=
  ⟨numeric_coercion_total.1 ("area", "area_m2") (by decide) (mkNameRow "Alpha", none),
   numeric_coercion_total.2.2.2.1.1⟩

/-- C6: the unit-conversion helper returns `feet + inches/12` elementwise
when both operands coerce, and null when either operand is null or
unparseable (never a partial value); the four imperial output fields are
computed by it; `feet = 5, inches = 6` gives `5.5`, and `feet = 5,
inches = null` gives null. -/
theorem ft_in_to_ft_spec :
    (∀ ft inch a b, toNumeric ft = some a → toNumeric inch = some b →
      ft_in_to_ft ft inch = Cell.num (a + b / 12)) ∧
    (∀ ft inch, toNumeric ft = none ∨ toNumeric inch = none →
      ft_in_to_ft ft inch = Cell.empty) ∧
    (∀ e : Entry,
      buildCell "loa_imperial" e = ft_in_to_ft (e.1 "loa_ft") (e.1 "loa_in")
      ∧ buildCell "lwl_imperial" e = ft_in_to_ft (e.1 "lwl_ft") (e.1 "lwl_in")
      ∧ buildCell "beam_imperial" e = ft_in_to_ft (e.1 "beam_ft") (e.1 "beam_in")
      ∧ buildCell "draft_full_load_imperial" e
          = ft_in_to_ft (e.1 "draft_full_ft") (e.1 "draft_full_in")) ∧
    ft_in_to_ft (Cell.num 5) (Cell.num 6) = Cell.num (11/2) ∧
    ft_in_to_ft (Cell.num 5) Cell.empty = Cell.empty := by
  refine ⟨?_, ?_, fun e => ⟨rfl, rfl, rfl, rfl⟩, ?_, rfl⟩
  · intro ft inch a b ha hb
    unfold ft_in_to_ft
    rw [ha, hb]
  · intro ft inch h
    unfold ft_in_to_ft
    rcases h with h | h
    · rw [h]
    · rw [h]
      cases toNumeric ft <;> rfl
  · show Cell.num ((5 : ℚ) + 6 / 12) = Cell.num (11/2)
    norm_num

theorem ft_in_to_ft_spec_witness :
    ft_in_to_ft (Cell.num 5) (Cell.num 6) = Cell.num ((5 : ℚ) + 6 / 12)
    ∧ ft_in_to_ft (Cell.num 5) Cell.empty = Cell.empty :=
  ⟨ft_in_to_ft_spec.1 (Cell.num 5) (Cell.num 6) 5 6 rfl rfl,
   ft_in_to_ft_spec.2.1 (Cell.num 5) Cell.empty (Or.inr rfl)⟩

/-- C7: in the final cleanup the four machinery text columns (engine,
generators, bow_thr, stabilizers) have every string value shorter than 4
characters replaced by null and every string of length ≥ 4 passed through
unchanged (non-string cells pass through); every other column of the
table is left untouched; `"V8"` becomes null and `"Caterpillar C32"` is
unchanged. -/
theorem short_text_nulling :
    (∀ s : String, s.length < 4 → nullShortText (Cell.str s) = Cell.empty) ∧
    (∀ s : String, 4 ≤ s.length → nullShortText (Cell.str s) = Cell.str s) ∧
    (∀ q : ℚ, nullShortText (Cell.num q) = Cell.num q) ∧
    nullShortText Cell.empty = Cell.empty ∧
    (∀ (t : Table) (n : String) (vals : List Cell), (n, vals) ∈ t →
      (n = "engine" ∨ n = "generators" ∨ n = "bow_thr" ∨ n = "stabilizers") →
      (n, vals.map nullShortText) ∈ fixShortText t) ∧
    (∀ (t : Table) (n : String) (vals : List Cell), (n, vals) ∈ t →
      ¬(n = "engine" ∨ n = "generators" ∨ n = "bow_thr" ∨ n = "stabilizers") →
      (n, vals) ∈ fixShortText t) ∧
    nullShortText (Cell.str "V8") = Cell.empty ∧
    nullShortText (Cell.str "Caterpillar C32") = Cell.str "Caterpillar C32" := by
  refine ⟨?_, ?_, fun q => rfl, rfl, ?_, ?_, by decide, by decide⟩
  · intro s h
    simp [nullShortText, h]
  · intro s h
    simp [nullShortText, Nat.not_lt.mpr h]
  · intro t n vals hmem hn
    have : (fun col : String × List Cell =>
        if col.1 == "engine" || col.1 == "generators" || col.1 == "bow_thr"
            || col.1 == "stabilizers" then
          (col.1, col.2.map nullShortText)
        else col) (n, vals) = (n, vals.map nullShortText) := by
      have hcond : (n == "engine" || n == "generators" || n == "bow_thr"
          || n == "stabilizers") = true := by
        rcases hn with h | h | h | h <;> simp [h]
      simp only [hcond, if_true]
    rw [← this]
    exact List.mem_map_of_mem _ hmem
  · intro t n vals hmem hn
    push_neg at hn
    obtain ⟨h1, h2, h3, h4⟩ := hn
    have : (fun col : String × List Cell =>
        if col.1 == "engine" || col.1 == "generators" || col.1 == "bow_thr"
            || col.1 == "stabilizers" then
          (col.1, col.2.map nullShortText)
        else col) (n, vals) = (n, vals) := by
      have hcond : (n == "engine" || n == "generators" || n == "bow_thr"
          || n == "stabilizers") = false := by
        simp [h1, h2, h3, h4]
      simp only [hcond, Bool.false_eq_true, if_false]
    rw [← this]
    exact List.mem_map_of_mem _ hmem

theorem short_text_nulling_witness :
    nullShortText (Cell.str "V8") = Cell.empty
    ∧ nullShortText (Cell.str "Caterpillar C32") = Cell.str "Caterpillar C32"
    ∧ ("engine", [Cell.str "V8"].map nullShortText)
        ∈ fixShortText [("engine", [Cell.str "V8"])] :=
  ⟨short_text_nulling.1 "V8" (by decide),
   short_text_nulling.2.1 "Caterpillar C32" (by decide),
   short_text_nulling.2.2.2.2.1 [("engine", [Cell.str "V8"])] "engine" [Cell.str "V8"]
     (List.mem_singleton.mpr rfl) (Or.inl rfl)⟩

/-- C9: the fields price_m2, price_gt, price_ton and consumption are the
source cell's numeric coercion rounded (half-to-even, as numpy does) —
and the rounded value is a nearest integer: no integer is strictly closer
to the coerced value; a null coercion stays null. -/
theorem price_rounding_nearest :
    (∀ e : Entry,
      buildCell "price_m2" e = roundC (e.1 "price_m2")
      ∧ buildCell "price_gt" e = roundC (e.1 "price_gt")
      ∧ buildCell "price_ton" e = roundC (e.1 "price_ton")
      ∧ buildCell "consumption" e = roundC (e.1 "consumption_raw")) ∧
    (∀ c q, toNumeric c = some q →
      roundC c = Cell.num (mkRat (roundHalfEven q) 1)
      ∧ (mkRat (roundHalfEven q) 1 : ℚ) = ((roundHalfEven q : ℤ) : ℚ)
      ∧ ∀ n : ℤ, |q - (roundHalfEven q : ℚ)| ≤ |q - (n : ℚ)|) ∧
    (∀ c, toNumeric c = none → roundC c = Cell.empty) := by
  refine ⟨fun e => ⟨rfl, rfl, rfl, rfl⟩, ?_, ?_⟩
  · intro c q h
    refine ⟨?_, mkRat_intCast _, fun n => roundHalfEven_nearest q n⟩
    unfold roundC
    rw [h]
  · intro c h
    unfold roundC
    rw [h]

theorem price_rounding_nearest_witness :
    roundC (Cell.str "2.5") = Cell.num (mkRat (roundHalfEven (mkRat 5 2)) 1)
    ∧ roundC (Cell.str "N/A") = Cell.empty :=
  ⟨(price_rounding_nearest.2.1 (Cell.str "2.5") (mkRat 5 2) (by decide)).1,
   price_rounding_nearest.2.2 (Cell.str "N/A") (by decide)⟩

/-- C10: the rows that survive filtering are exactly the input rows
satisfying the keep predicate, in their original relative order — the
surviving row list is a sublist of the input (no reordering, duplication
or insertion) — and every assembled output column is an elementwise map
over those surviving entries, preserving that order. -/
theorem row_order_preserved :
    (∀ rows : List RawRow, (cleanRows rows).map Prod.fst = rows.filter keepRow) ∧
    (∀ rows : List RawRow, List.Sublist ((cleanRows rows).map Prod.fst) rows) ∧
    (∀ (entries : List Entry) (col : String × List Cell), col ∈ assembleColumns entries →
      ∃ f, (col.1, f) ∈ outSpec ∧ col.2 = entries.map f) := by
  refine ⟨cleanRows_map_fst, ?_, ?_⟩
  · intro rows
    rw [cleanRows_map_fst]
    exact List.filter_sublist rows
  · intro entries col h
    obtain ⟨c, hc, hcol⟩ := List.mem_map.mp h
    refine ⟨c.2, ?_, ?_⟩
    · rw [← hcol]
      exact hc
    · rw [← hcol]

theorem row_order_preserved_witness :
    (cleanRows sampleSheet).map Prod.fst = sampleSheet.filter keepRow
    ∧ ∃ f, ("name", f) ∈ outSpec ∧ ([] : List Cell) = ([] : List Entry).map f :=
  ⟨row_order_preserved.1 sampleSheet,
   row_order_preserved.2.2 [] ("name", []) (by decide)⟩
